import Mathlib

/-!
Verification development for the ephemeral-message lifecycle subsystem
(`src/ephemeral.rs`) of a chat client built on email transport.

The SQL store is shallowly embedded: the `msgs` table is a `List MsgRow`,
the `chats` table a `List ChatRow`, the `jobs` table a `List Job`.  A SQL
`UPDATE ... WHERE c` is a `List.map` applying the update exactly to the
rows satisfying `c`; a `SELECT ... LIMIT 1` is a `List.find?`;
`SELECT ... ORDER BY x ASC LIMIT 1` is a minimum.  Machine integers are
`Nat`/`Int` (timestamps are `i64` in the source and are embedded as `Int`;
`u32` values are `Nat` with explicit `< 2^32` bounds where they matter).
Fallible operations return `Option`.
-/

/-- Reserved chat id of the trash chat.  Modelled from the spec: the
constant `DC_CHAT_ID_TRASH` lives in `constants.rs`, which is not part of
the sources; the spec only requires it to be a reserved id at or below
`LAST_SPECIAL`. -/
def DC_CHAT_ID_TRASH : Nat := 3

/-- Largest reserved ("special") chat id.  Modelled from the spec: the
constant `DC_CHAT_ID_LAST_SPECIAL` lives in `constants.rs`, which is not
part of the sources. -/
def DC_CHAT_ID_LAST_SPECIAL : Nat := 9

/-- Contact id of the self contact.  Modelled from the spec (reserved ids
shared with collaborators; the value is only a tag here). -/
def DC_CONTACT_ID_SELF : Nat := 1

/-- Whether a chat id is special (reserved).  Modelled from the spec:
`ChatId::is_special` lives in `chat.rs`, which is not part of the sources;
the spec states that ids at or below `LAST_SPECIAL` are reserved. -/
def chatIdIsSpecial (id : Nat) : Prop := id ≤ DC_CHAT_ID_LAST_SPECIAL

instance (id : Nat) : Decidable (chatIdIsSpecial id) := by
  unfold chatIdIsSpecial; exact inferInstance

/-- The ephemeral timer value of a chat: disabled, or enabled with a
duration in seconds (`u32` in the source). -/
inductive Timer where
  | Disabled : Timer
  | Enabled : (duration : Nat) → Timer
deriving DecidableEq

/-- Integer encoding of a timer (`Timer::to_u32`). -/
def Timer.to_u32 : Timer → Nat
  | .Disabled => 0
  | .Enabled duration => duration

/-- Integer decoding of a timer (`Timer::from_u32`). -/
def Timer.from_u32 (duration : Nat) : Timer :=
  if duration = 0 then .Disabled else .Enabled duration

/-- Message lifecycle states.  Modelled from the spec: the `MessageState`
enum lives in `message.rs`, which is not part of the sources; the subsystem
only distinguishes the three states that disqualify a message from having
its timer auto-started (`IN_FRESH`, `IN_NOTICED`, `OUT_DRAFT`); every other
state is represented by `Seen`. -/
inductive MessageState where
  | InFresh | InNoticed | OutDraft | Seen
deriving DecidableEq

/-- One row of the `msgs` table, restricted to the columns the subsystem
reads or writes. -/
structure MsgRow where
  id : Nat
  chat_id : Nat
  ephemeral_timer : Int
  ephemeral_timestamp : Int
  timestamp : Int
  server_uid : Nat
  state : MessageState
  txt : String
  subject : String
  txt_raw : String
  mime_headers : String
  from_id : Nat
  to_id : Nat
  param : String
deriving DecidableEq

/-- The WHERE clause of pass A of `delete_expired_messages`:
`ephemeral_timestamp != 0 AND ephemeral_timestamp <= now AND chat_id != TRASH`. -/
def msgExpiredA (now : Int) (r : MsgRow) : Prop :=
  r.ephemeral_timestamp ≠ 0 ∧ r.ephemeral_timestamp ≤ now ∧
    r.chat_id ≠ DC_CHAT_ID_TRASH

instance (now : Int) (r : MsgRow) : Decidable (msgExpiredA now r) := by
  unfold msgExpiredA; exact inferInstance

/-- The SET clause of pass A of `delete_expired_messages`: move to trash and
clear the payload columns; `ephemeral_timestamp` and `server_uid` are not
touched. -/
def trashRowA (r : MsgRow) : MsgRow :=
  { r with chat_id := DC_CHAT_ID_TRASH, txt := "", subject := "",
           txt_raw := "", mime_headers := "", from_id := 0, to_id := 0,
           param := "" }

/-- Pass A of `delete_expired_messages`: one batched UPDATE over `msgs`. -/
def deleteExpiredPassA (now : Int) (msgs : List MsgRow) : List MsgRow :=
  msgs.map fun r => if msgExpiredA now r then trashRowA r else r

/-- The WHERE clause of pass B of `delete_expired_messages`:
`timestamp < threshold AND chat_id > LAST_SPECIAL AND chat_id != self_chat
AND chat_id != device_chat`. -/
def msgExpiredB (threshold : Int) (selfChat deviceChat : Nat) (r : MsgRow) : Prop :=
  r.timestamp < threshold ∧ DC_CHAT_ID_LAST_SPECIAL < r.chat_id ∧
    r.chat_id ≠ selfChat ∧ r.chat_id ≠ deviceChat

instance (threshold : Int) (selfChat deviceChat : Nat) (r : MsgRow) :
    Decidable (msgExpiredB threshold selfChat deviceChat r) := by
  unfold msgExpiredB; exact inferInstance

/-- The SET clause of pass B of `delete_expired_messages`:
`SET txt = 'DELETED', chat_id = TRASH`; no other column is touched. -/
def tombstoneRowB (r : MsgRow) : MsgRow :=
  { r with txt := "DELETED", chat_id := DC_CHAT_ID_TRASH }

/-- Pass B of `delete_expired_messages`: one batched UPDATE over `msgs`,
executed only when `delete_device_after` is configured. -/
def deleteExpiredPassB (threshold : Int) (selfChat deviceChat : Nat)
    (msgs : List MsgRow) : List MsgRow :=
  msgs.map fun r =>
    if msgExpiredB threshold selfChat deviceChat r then tombstoneRowB r else r

/-- Effect of `delete_expired_messages` on the `msgs` table: pass A, then,
when `delete_device_after` is configured, pass B with
`threshold = now - delete_device_after`.  `selfChat` and `deviceChat` are
the results of the two `lookup_by_contact_id` calls. -/
def sweepMsgs (delete_device_after : Option Int) (selfChat deviceChat : Nat)
    (now : Int) (msgs : List MsgRow) : List MsgRow :=
  match delete_device_after with
  | none => deleteExpiredPassA now msgs
  | some dda =>
      deleteExpiredPassB (now - dda) selfChat deviceChat
        (deleteExpiredPassA now msgs)

/-- The function `delete_expired_messages`: returns the updated `msgs` table
together with the `updated` flag (true iff either UPDATE affected a row;
each SQL execute reports the number of rows matching its WHERE clause).
After the passes the source re-arms the wake-up scheduler
(`schedule_ephemeral_task`), which touches only the task slot, modelled
separately. -/
def delete_expired_messages (delete_device_after : Option Int)
    (selfChat deviceChat : Nat) (now : Int) (msgs : List MsgRow) :
    List MsgRow × Bool :=
  let msgs1 := deleteExpiredPassA now msgs
  let updatedA := msgs.any fun r => decide (msgExpiredA now r)
  match delete_device_after with
  | none => (msgs1, updatedA)
  | some dda =>
      let threshold := now - dda
      let msgs2 := deleteExpiredPassB threshold selfChat deviceChat msgs1
      let updatedB := msgs1.any fun r =>
        decide (msgExpiredB threshold selfChat deviceChat r)
      (msgs2, updatedA || updatedB)

/-- Events the subsystem emits into the event bus. -/
inductive EventType where
  | MsgsChanged (chat_id : Nat) (msg_id : Nat) : EventType
  | ChatEphemeralTimerModified (chat_id : Nat) (timer : Timer) : EventType
deriving DecidableEq

/-- Minimum of a list of integers, `none` on the empty list; embeds
`SELECT x ... ORDER BY x ASC LIMIT 1`. -/
def listMinInt : List Int → Option Int
  | [] => none
  | x :: xs =>
      match listMinInt xs with
      | none => some x
      | some y => some (min x y)

/-- The scheduler query of `schedule_ephemeral_task`: the least
`ephemeral_timestamp` among rows with `ephemeral_timestamp != 0 AND
chat_id != TRASH`, or `none` when no such row exists. -/
def minEphemeralTimestamp (msgs : List MsgRow) : Option Int :=
  listMinInt ((msgs.filter fun r =>
    decide (r.ephemeral_timestamp ≠ 0 ∧ r.chat_id ≠ DC_CHAT_ID_TRASH)).map
      (·.ephemeral_timestamp))

/-- Largest `u64` value, used by the source's
`ephemeral_timestamp.try_into().unwrap_or(u64::MAX)` clamp for negative
column values. -/
def U64_MAX : Int := 2 ^ 64 - 1

/-- The function `schedule_ephemeral_task`, as its effect on the task slot
and the event bus.  The existing task is always cancelled, so the returned
slot replaces the old one.  Returns the new slot content (the armed task's
firing deadline in unix seconds, if any) and the list of events emitted
immediately.  The source compares `UNIX_EPOCH + ts + 1s` with
`SystemTime::now()` via `duration_since`, which succeeds exactly when the
deadline is at or after `now`. -/
def schedule_ephemeral_task (now : Int) (msgs : List MsgRow) :
    Option Int × List EventType :=
  match minEphemeralTimestamp msgs with
  | none => (none, [])
  | some ts =>
      let deadline : Int := (if 0 ≤ ts then ts else U64_MAX) + 1
      if now ≤ deadline then (some deadline, [])
      else (none, [.MsgsChanged 0 0])

/-- Job actions.  Modelled from the spec: the `Action` enum lives in
`job.rs`, which is not part of the sources; the subsystem only mentions
`DeleteMsgOnImap`, all other actions are represented by `OtherAction`. -/
inductive JobAction where
  | DeleteMsgOnImap | OtherAction
deriving DecidableEq

/-- One row of the `jobs` table, restricted to the columns the subsystem
queries. -/
structure Job where
  action : JobAction
  foreign_id : Nat
deriving DecidableEq

/-- The WHERE clause of `load_imap_deletion_msgid` for a fixed jobs table. -/
def imapDeletionCandidate (threshold now : Int) (jobs : List Job)
    (r : MsgRow) : Prop :=
  (r.timestamp < threshold ∨
    (r.ephemeral_timestamp ≠ 0 ∧ r.ephemeral_timestamp ≤ now)) ∧
  r.server_uid ≠ 0 ∧
  ¬ ∃ j ∈ jobs, j.action = JobAction.DeleteMsgOnImap ∧ j.foreign_id = r.id

/-- The server-age threshold of `load_imap_deletion_msgid`: 0 when
`delete_server_after` is unconfigured (disabling the age branch, since
timestamps are positive), else `now - delete_server_after`. -/
def serverAgeThreshold (delete_server_after : Option Int) (now : Int) : Int :=
  match delete_server_after with
  | none => 0
  | some delete_server_after => now - delete_server_after

instance (threshold now : Int) (jobs : List Job) (r : MsgRow) :
    Decidable (imapDeletionCandidate threshold now jobs r) := by
  unfold imapDeletionCandidate
  exact instDecidableAnd

/-- The function `load_imap_deletion_msgid`.  The source's `SELECT ...
LIMIT 1` has no ORDER BY, so the store may return any matching row; it is
embedded as the first matching row, and the theorems proved about it hold
for any choice among the matching rows. -/
def load_imap_deletion_msgid (delete_server_after : Option Int) (now : Int)
    (jobs : List Job) (msgs : List MsgRow) : Option Nat :=
  (msgs.find? fun r =>
    decide (imapDeletionCandidate (serverAgeThreshold delete_server_after now)
      now jobs r)).map (·.id)

/-- Reading the `ephemeral_timer` column of one message
(`MsgId::ephemeral_timer`): a missing row or 0 yields `Disabled`, a value
in `1..=u32::MAX` yields `Enabled`, anything else is an out-of-range
decode error (`none`). -/
def msgEphemeralTimer (mid : Nat) (msgs : List MsgRow) : Option Timer :=
  match (msgs.find? fun r => decide (r.id = mid)).map (·.ephemeral_timer) with
  | none => some .Disabled
  | some v =>
      if v = 0 then some .Disabled
      else if 0 < v ∧ v < 2 ^ 32 then some (.Enabled v.toNat)
      else none

/-- The function `MsgId::start_ephemeral_timer`: reads the message's timer;
a disabled timer is a no-op; an enabled timer issues
`UPDATE msgs SET ephemeral_timestamp = now + duration WHERE
(ephemeral_timestamp == 0 OR ephemeral_timestamp > now + duration) AND
id = ?`.  Returns `none` on a timer-decode error.  The source then re-arms
the scheduler, which touches only the task slot, modelled separately. -/
def start_ephemeral_timer (mid : Nat) (now : Int) (msgs : List MsgRow) :
    Option (List MsgRow) :=
  match msgEphemeralTimer mid msgs with
  | none => none
  | some .Disabled => some msgs
  | some (.Enabled duration) =>
      let deadline : Int := now + (duration : Int)
      some (msgs.map fun r =>
        if (r.ephemeral_timestamp = 0 ∨ deadline < r.ephemeral_timestamp) ∧
            r.id = mid
        then { r with ephemeral_timestamp := deadline }
        else r)

/-- The housekeeping function `start_ephemeral_timers`:
`UPDATE msgs SET ephemeral_timestamp = now + ephemeral_timer WHERE
ephemeral_timer > 0 AND ephemeral_timestamp = 0 AND state NOT IN
(InFresh, InNoticed, OutDraft)`. -/
def start_ephemeral_timers (now : Int) (msgs : List MsgRow) : List MsgRow :=
  msgs.map fun r =>
    if 0 < r.ephemeral_timer ∧ r.ephemeral_timestamp = 0 ∧
        r.state ≠ MessageState.InFresh ∧ r.state ≠ MessageState.InNoticed ∧
        r.state ≠ MessageState.OutDraft
    then { r with ephemeral_timestamp := now + r.ephemeral_timer }
    else r

/-- One operation of the subsystem acting on the `msgs` table. -/
inductive SubsystemOp where
  | sweep (delete_device_after : Option Int) (selfChat deviceChat : Nat)
      (now : Int) : SubsystemOp
  | startTimer (mid : Nat) (now : Int) : SubsystemOp
  | repairTimers (now : Int) : SubsystemOp

/-- Effect of one subsystem operation on the `msgs` table (a failed
`start_ephemeral_timer` leaves the table unchanged). -/
def applyOp : SubsystemOp → List MsgRow → List MsgRow
  | .sweep dda selfChat deviceChat now, msgs =>
      (delete_expired_messages dda selfChat deviceChat now msgs).1
  | .startTimer mid now, msgs => (start_ephemeral_timer mid now msgs).getD msgs
  | .repairTimers now, msgs => start_ephemeral_timers now msgs

/-- Invariant I3 as stated by the spec: every row in the trash chat has all
payload fields empty or zero. -/
def InvariantI3 (msgs : List MsgRow) : Prop :=
  ∀ r ∈ msgs, r.chat_id = DC_CHAT_ID_TRASH →
    r.txt = "" ∧ r.subject = "" ∧ r.txt_raw = "" ∧ r.mime_headers = "" ∧
    r.from_id = 0 ∧ r.to_id = 0 ∧ r.param = ""

instance (msgs : List MsgRow) : Decidable (InvariantI3 msgs) := by
  unfold InvariantI3; exact List.decidableBAll _ msgs

/-- Weakened invariant I3: every row in the trash chat either has all
payload fields empty or zero, or carries the device-age tombstone text
`DELETED`. -/
def InvariantI3Weak (msgs : List MsgRow) : Prop :=
  ∀ r ∈ msgs, r.chat_id = DC_CHAT_ID_TRASH →
    (r.txt = "" ∧ r.subject = "" ∧ r.txt_raw = "" ∧ r.mime_headers = "" ∧
      r.from_id = 0 ∧ r.to_id = 0 ∧ r.param = "") ∨
    r.txt = "DELETED"

instance (msgs : List MsgRow) : Decidable (InvariantI3Weak msgs) := by
  unfold InvariantI3Weak; exact List.decidableBAll _ msgs

/-- Decimal digit characters of a natural number, most significant first;
embeds Rust's integer `Display`. -/
def natToChars (n : Nat) : List Char :=
  if h : n < 10 then [Char.ofNat (48 + n)]
  else natToChars (n / 10) ++ [Char.ofNat (48 + n % 10)]
termination_by n
decreasing_by exact Nat.div_lt_self (by omega) (by omega)

/-- Decimal rendering of a natural number as a string. -/
def natToString (n : Nat) : String := String.mk (natToChars n)

/-- String encoding of a timer (`Timer::to_string`), the decimal rendering
of its `u32` encoding. -/
def Timer.to_string (t : Timer) : String := natToString t.to_u32

/-- Digit-accumulating loop of `u32::from_str`: consumes decimal digits,
failing on a non-digit or on overflow past `u32::MAX`. -/
def parseU32From (acc : Nat) : List Char → Option Nat
  | [] => some acc
  | c :: cs =>
      if c.isDigit then
        let acc' := acc * 10 + (c.toNat - 48)
        if acc' < 2 ^ 32 then parseU32From acc' cs else none
      else none

/-- The parser `u32::from_str`: an optional leading `+` sign followed by at
least one decimal digit; a leading `-` is not a digit and fails.  Strings
are embedded as their character lists. -/
def parseU32 (s : List Char) : Option Nat :=
  match s with
  | [] => none
  | c :: cs =>
      if c = '+' then (if cs = [] then none else parseU32From 0 cs)
      else parseU32From 0 (c :: cs)

/-- String decoding of a timer (`Timer::from_str`): parse a `u32`, then map
through `Timer::from_u32`; a parse failure is `none`. -/
def Timer.from_str (input : String) : Option Timer :=
  (parseU32 input.data).map Timer.from_u32

/-- Rounding to the nearest integer, half away from zero, of `n / d` for
positive `n` and even positive `d`.  This embeds the source's
`(f64::from(n) / f64::from(d)).round()` exactly for the divisors 6, 360,
8640 and 60480 and `n < 2^32`: when the exact quotient is a half-integer
`(2k+1)/2` it is exactly representable in `f64` (numerator below `2^53`),
so `f64::round` resolves the tie away from zero on the true value; in
every other case the exact quotient is at distance at least `1/60480` from
the nearest half-integer, while the `f64` quotient differs from the exact
one by less than `2^-20`, so both round to the same integer. -/
def roundHalfAwayDiv (n d : Nat) : Nat := (n + d / 2) / d

/-- Decimal rendering of a number of tenths, as produced by the source's
`format` of `x / 10.0` with integral `x`: Rust prints the shortest decimal
that round-trips, which for these values is the exact quotient with at
most one fractional digit. -/
def tenthsString (tenths : Nat) : String :=
  if tenths % 10 = 0 then natToString (tenths / 10)
  else natToString (tenths / 10) ++ "." ++ natToString (tenths % 10)

/-- The result of `stock_ephemeral_timer_changed`: which localized template
is selected, the numeric fragment handed to it (when the template has one)
and the actor contact id.  Localization itself is a collaborator. -/
inductive RenderedMsg where
  | disabledTemplate (actor : Nat) : RenderedMsg
  | secondsTemplate (frag : String) (actor : Nat) : RenderedMsg
  | minuteTemplate (actor : Nat) : RenderedMsg
  | minutesTemplate (frag : String) (actor : Nat) : RenderedMsg
  | hourTemplate (actor : Nat) : RenderedMsg
  | hoursTemplate (frag : String) (actor : Nat) : RenderedMsg
  | dayTemplate (actor : Nat) : RenderedMsg
  | daysTemplate (frag : String) (actor : Nat) : RenderedMsg
  | weekTemplate (actor : Nat) : RenderedMsg
  | weeksTemplate (frag : String) (actor : Nat) : RenderedMsg
deriving DecidableEq

/-- The function `stock_ephemeral_timer_changed`: selects the template by
the duration ranges of the source's match and computes the numeric
fragment. -/
def stock_ephemeral_timer_changed (timer : Timer) (from_id : Nat) :
    RenderedMsg :=
  match timer with
  | .Disabled => .disabledTemplate from_id
  | .Enabled duration =>
      if duration ≤ 59 then .secondsTemplate (Timer.to_string timer) from_id
      else if duration = 60 then .minuteTemplate from_id
      else if duration ≤ 3599 then
        .minutesTemplate (tenthsString (roundHalfAwayDiv duration 6)) from_id
      else if duration = 3600 then .hourTemplate from_id
      else if duration ≤ 86399 then
        .hoursTemplate (tenthsString (roundHalfAwayDiv duration 360)) from_id
      else if duration = 86400 then .dayTemplate from_id
      else if duration ≤ 604799 then
        .daysTemplate (tenthsString (roundHalfAwayDiv duration 8640)) from_id
      else if duration = 604800 then .weekTemplate from_id
      else .weeksTemplate (tenthsString (roundHalfAwayDiv duration 60480)) from_id

/-- One row of the `chats` table, restricted to the columns the subsystem
reads or writes. -/
structure ChatRow where
  id : Nat
  ephemeral_timer : Timer
deriving DecidableEq

/-- System-message markers.  Modelled from the spec: the `SystemMessage`
enum lives in `mimeparser.rs`, which is not part of the sources; the
subsystem only attaches `EphemeralTimerChanged`. -/
inductive SystemMessage where
  | EphemeralTimerChanged
deriving DecidableEq

/-- An outbound message handed to `send_msg`, restricted to the fields the
subsystem sets. -/
structure SentMsg where
  text : RenderedMsg
  cmd : SystemMessage
deriving DecidableEq

/-- The state touched by the per-chat timer store: the `chats` table, the
event bus and the outbound pipeline. -/
structure ChatState where
  chats : List ChatRow
  events : List EventType
  sent : List SentMsg
deriving DecidableEq

/-- The function `ChatId::get_ephemeral_timer`: read the column; a missing
row yields the default `Disabled`. -/
def get_ephemeral_timer (cid : Nat) (st : ChatState) : Timer :=
  ((st.chats.find? fun c => decide (c.id = cid)).map
    (·.ephemeral_timer)).getD .Disabled

/-- The function `ChatId::inner_set_ephemeral_timer`: rejects special chat
ids; otherwise issues `UPDATE chats SET ephemeral_timer=? WHERE id=?` and
emits one `ChatEphemeralTimerModified` event.  `none` is the
invalid-chat-ID error. -/
def inner_set_ephemeral_timer (cid : Nat) (timer : Timer) (st : ChatState) :
    Option ChatState :=
  if chatIdIsSpecial cid then none
  else
    some { st with
      chats := st.chats.map fun c =>
        if c.id = cid then { c with ephemeral_timer := timer } else c,
      events := st.events ++ [.ChatEphemeralTimerModified cid timer] }

/-- The function `ChatId::set_ephemeral_timer`: a no-op when the timer
already has the requested value; otherwise write through the silent setter
and attempt to send a system message about the change.  `sendOk` is the
outcome of the `send_msg` collaborator; a send failure is logged and
swallowed, so the result is still success. -/
def set_ephemeral_timer (cid : Nat) (timer : Timer) (sendOk : Bool)
    (st : ChatState) : Option ChatState :=
  if timer = get_ephemeral_timer cid st then some st
  else
    match inner_set_ephemeral_timer cid timer st with
    | none => none
    | some st1 =>
        let msg : SentMsg :=
          { text := stock_ephemeral_timer_changed timer DC_CONTACT_ID_SELF,
            cmd := .EphemeralTimerChanged }
        if sendOk then some { st1 with sent := st1.sent ++ [msg] } else some st1

/-- A sample live message row used by concrete witnesses and
counterexamples. -/
def sampleRow : MsgRow :=
  { id := 1, chat_id := 10, ephemeral_timer := 0, ephemeral_timestamp := 0,
    timestamp := 0, server_uid := 5, state := .Seen, txt := "hi",
    subject := "sub", txt_raw := "raw", mime_headers := "mh", from_id := 7,
    to_id := 8, param := "p" }

/-- Per-row effect of the two passes of `delete_expired_messages` (the
composition of the two batched UPDATEs on one row). -/
def sweepRowFun (delete_device_after : Option Int) (selfChat deviceChat : Nat)
    (now : Int) (r : MsgRow) : MsgRow :=
  let r1 := if msgExpiredA now r then trashRowA r else r
  match delete_device_after with
  | none => r1
  | some dda =>
      if msgExpiredB (now - dda) selfChat deviceChat r1 then tombstoneRowB r1
      else r1

/-! ## Theorems -/

theorem delete_expired_messages_fst (dda : Option Int)
    (selfChat deviceChat : Nat) (now : Int) (msgs : List MsgRow) :
    (delete_expired_messages dda selfChat deviceChat now msgs).1 =
      msgs.map (sweepRowFun dda selfChat deviceChat now) := by
  cases dda <;>
    simp [delete_expired_messages, deleteExpiredPassA, deleteExpiredPassB,
      sweepRowFun, List.map_map, Function.comp]

/-- Claim C9: the integer encoding of `Timer` round-trips: for every
`u32` value `n`, `from_u32 n` encodes back to `n`; `from_u32 0` is
`Disabled`; and for positive `n`, `from_u32 n` is `Enabled n`. -/
theorem claim_C9_timer_u32_roundtrip (n : Nat) (h : n < 2 ^ 32) :
    (Timer.from_u32 n).to_u32 = n ∧ Timer.from_u32 0 = .Disabled ∧
      (0 < n → Timer.from_u32 n = .Enabled n) := by
  refine ⟨?_, by simp [Timer.from_u32], fun hn => ?_⟩
  · unfold Timer.from_u32
    split
    · simp [Timer.to_u32]; omega
    · rfl
  · unfold Timer.from_u32
    rw [if_neg (by omega)]

theorem claim_C9_witness :
    (Timer.from_u32 5).to_u32 = 5 ∧ Timer.from_u32 0 = .Disabled ∧
      (0 < 5 → Timer.from_u32 5 = .Enabled 5) :=
  claim_C9_timer_u32_roundtrip 5 (by decide)

/-- Claim C1: one call to `delete_expired_messages` moves a message row to
the trash chat and clears all its payload columns exactly when the row
satisfied `ephemeral_timestamp != 0 AND ephemeral_timestamp <= now AND
chat_id != TRASH` at sweep time (a row not satisfying it is either left
unchanged or, under the device-age pass, tombstoned with text `DELETED`
instead of cleared), and on every row the `ephemeral_timestamp` and
`server_uid` columns keep their prior values. -/
theorem claim_C1_sweep_per_message_expiry (dda : Option Int)
    (selfChat deviceChat : Nat) (now : Int) (msgs : List MsgRow) (i : Nat)
    (hi : i < msgs.length) :
    ∃ r',
      ((delete_expired_messages dda selfChat deviceChat now msgs).1)[i]? =
        some r' ∧
      (msgExpiredA now msgs[i] →
        r' = trashRowA msgs[i] ∧ r'.chat_id = DC_CHAT_ID_TRASH ∧
        r'.txt = "" ∧ r'.subject = "" ∧ r'.txt_raw = "" ∧
        r'.mime_headers = "" ∧ r'.from_id = 0 ∧ r'.to_id = 0 ∧
        r'.param = "") ∧
      (¬ msgExpiredA now msgs[i] →
        r' = msgs[i] ∨ r' = tombstoneRowB msgs[i]) ∧
      r'.ephemeral_timestamp = msgs[i].ephemeral_timestamp ∧
      r'.server_uid = msgs[i].server_uid := by
  refine ⟨sweepRowFun dda selfChat deviceChat now msgs[i], ?_, ?_, ?_, ?_, ?_⟩
  · rw [delete_expired_messages_fst]
    simp [List.getElem?_map, List.getElem?_eq_getElem hi]
  · intro hc
    have hval : sweepRowFun dda selfChat deviceChat now msgs[i] =
        trashRowA msgs[i] := by
      unfold sweepRowFun
      rw [if_pos hc]
      cases dda with
      | none => rfl
      | some dda =>
          dsimp only
          rw [if_neg]
          intro hB
          have h1 : (trashRowA msgs[i]).chat_id = DC_CHAT_ID_TRASH := rfl
          have h2 := hB.2.1
          rw [h1] at h2
          exact absurd h2 (by decide)
    refine ⟨hval, ?_⟩
    rw [hval]
    exact ⟨rfl, rfl, rfl, rfl, rfl, rfl, rfl, rfl⟩
  · intro hc
    unfold sweepRowFun
    rw [if_neg hc]
    cases dda with
    | none => exact Or.inl rfl
    | some dda =>
        dsimp only
        by_cases hB : msgExpiredB (now - dda) selfChat deviceChat msgs[i]
        · rw [if_pos hB]; exact Or.inr rfl
        · rw [if_neg hB]; exact Or.inl rfl
  · unfold sweepRowFun
    cases dda with
    | none => dsimp only; split <;> rfl
    | some dda => dsimp only; split <;> split <;> rfl
  · unfold sweepRowFun
    cases dda with
    | none => dsimp only; split <;> rfl
    | some dda => dsimp only; split <;> split <;> rfl

theorem claim_C1_witness :
    ∃ r',
      ((delete_expired_messages none 1 2 100
        [{ sampleRow with ephemeral_timestamp := 50 }]).1)[0]? = some r' ∧
      (msgExpiredA 100 ({ sampleRow with ephemeral_timestamp := 50 }) →
        r' = trashRowA { sampleRow with ephemeral_timestamp := 50 } ∧
        r'.chat_id = DC_CHAT_ID_TRASH ∧ r'.txt = "" ∧ r'.subject = "" ∧
        r'.txt_raw = "" ∧ r'.mime_headers = "" ∧ r'.from_id = 0 ∧
        r'.to_id = 0 ∧ r'.param = "") ∧
      (¬ msgExpiredA 100 ({ sampleRow with ephemeral_timestamp := 50 }) →
        r' = { sampleRow with ephemeral_timestamp := 50 } ∨
        r' = tombstoneRowB { sampleRow with ephemeral_timestamp := 50 }) ∧
      r'.ephemeral_timestamp =
        ({ sampleRow with ephemeral_timestamp := 50 } : MsgRow).ephemeral_timestamp ∧
      r'.server_uid =
        ({ sampleRow with ephemeral_timestamp := 50 } : MsgRow).server_uid := by
  have h := claim_C1_sweep_per_message_expiry none 1 2 100
    [{ sampleRow with ephemeral_timestamp := 50 }] 0 (by decide)
  simpa using h

/-- Claim C2 counterexample: invariant I3 as stated is not preserved. From
a state satisfying I3 (one live message in an ordinary chat), one sweep
with `delete_device_after = 100` at `now = 200` moves the stale row to the
trash chat with text `DELETED`, so the trash row's payload is not empty. -/
theorem claim_C2_counterexample :
    InvariantI3 [sampleRow] ∧
      ¬ InvariantI3 (applyOp (.sweep (some 100) 1 2 200) [sampleRow]) := by
  decide

/-- Claim C2 (amended): the weakened invariant - every trash-chat row
either has all payload fields empty or zero, or carries the device-age
tombstone text `DELETED` - is preserved by every operation of the
subsystem, in particular across both passes of `delete_expired_messages`. -/
theorem claim_C2_trash_payload_invariant_weak (op : SubsystemOp)
    (msgs : List MsgRow) (h : InvariantI3Weak msgs) :
    InvariantI3Weak (applyOp op msgs) := by
  cases op with
  | sweep dda selfChat deviceChat now =>
      intro r' hr' htrash
      rw [applyOp, delete_expired_messages_fst] at hr'
      obtain ⟨r, hr, rfl⟩ := List.mem_map.1 hr'
      unfold sweepRowFun at htrash ⊢
      cases dda with
      | none =>
          dsimp only at htrash ⊢
          split
          next hA => exact Or.inl ⟨rfl, rfl, rfl, rfl, rfl, rfl, rfl⟩
          next hA =>
            rw [if_neg hA] at htrash
            exact h r hr htrash
      | some dda =>
          dsimp only at htrash ⊢
          by_cases hA : msgExpiredA now r
          · rw [if_pos hA] at htrash ⊢
            rw [if_neg] at htrash ⊢
            · exact Or.inl ⟨rfl, rfl, rfl, rfl, rfl, rfl, rfl⟩
            all_goals
              intro hB
              have h2 := hB.2.1
              have h1 : (trashRowA r).chat_id = DC_CHAT_ID_TRASH := rfl
              rw [h1] at h2
              exact absurd h2 (by decide)
          · rw [if_neg hA] at htrash ⊢
            by_cases hB : msgExpiredB (now - dda) selfChat deviceChat r
            · rw [if_pos hB]
              exact Or.inr rfl
            · rw [if_neg hB] at htrash ⊢
              exact h r hr htrash
  | startTimer mid now =>
      intro r' hr' htrash
      rw [applyOp] at hr'
      cases hT : msgEphemeralTimer mid msgs with
      | none =>
          rw [start_ephemeral_timer, hT] at hr'
          exact h r' hr' htrash
      | some t =>
          cases t with
          | Disabled =>
              rw [start_ephemeral_timer, hT] at hr'
              exact h r' hr' htrash
          | Enabled duration =>
              rw [start_ephemeral_timer, hT] at hr'
              dsimp only [Option.getD] at hr'
              obtain ⟨r, hr, rfl⟩ := List.mem_map.1 hr'
              split
              next hcond =>
                rw [if_pos hcond] at htrash
                exact h r hr htrash
              next hcond =>
                rw [if_neg hcond] at htrash
                exact h r hr htrash
  | repairTimers now =>
      intro r' hr' htrash
      rw [applyOp] at hr'
      unfold start_ephemeral_timers at hr'
      obtain ⟨r, hr, rfl⟩ := List.mem_map.1 hr'
      split
      next hcond =>
        rw [if_pos hcond] at htrash
        exact h r hr htrash
      next hcond =>
        rw [if_neg hcond] at htrash
        exact h r hr htrash

theorem claim_C2_witness :
    InvariantI3Weak
      (applyOp (.sweep (some 100) 1 2 200) [sampleRow]) :=
  claim_C2_trash_payload_invariant_weak (.sweep (some 100) 1 2 200)
    [sampleRow] (by decide)

/-- Claim C3: `load_imap_deletion_msgid` returns `some m` only if some row
with id `m` has a remote copy (`server_uid != 0`), has tripped either the
server-age policy (threshold 0 when `delete_server_after` is unset) or its
per-message ephemeral expiry, and no queued `DeleteMsgOnImap` job targets
`m`; consequently, while such a job row is persisted, no call returns
`some m`. -/
theorem claim_C3_imap_deletion_selection (dsa : Option Int) (now : Int)
    (jobs : List Job) (msgs : List MsgRow) (m : Nat) :
    (load_imap_deletion_msgid dsa now jobs msgs = some m →
      ∃ r ∈ msgs, r.id = m ∧ r.server_uid ≠ 0 ∧
        (r.timestamp < serverAgeThreshold dsa now ∨
          (r.ephemeral_timestamp ≠ 0 ∧ r.ephemeral_timestamp ≤ now)) ∧
        ¬ ∃ j ∈ jobs, j.action = JobAction.DeleteMsgOnImap ∧
          j.foreign_id = m) ∧
    ((∃ j ∈ jobs, j.action = JobAction.DeleteMsgOnImap ∧ j.foreign_id = m) →
      load_imap_deletion_msgid dsa now jobs msgs ≠ some m) := by
  have main : load_imap_deletion_msgid dsa now jobs msgs = some m →
      ∃ r ∈ msgs, r.id = m ∧ r.server_uid ≠ 0 ∧
        (r.timestamp < serverAgeThreshold dsa now ∨
          (r.ephemeral_timestamp ≠ 0 ∧ r.ephemeral_timestamp ≤ now)) ∧
        ¬ ∃ j ∈ jobs, j.action = JobAction.DeleteMsgOnImap ∧
          j.foreign_id = m := by
    intro hsome
    unfold load_imap_deletion_msgid at hsome
    obtain ⟨r, hfind, hid⟩ := Option.map_eq_some'.1 hsome
    have hmem := List.mem_of_find?_eq_some hfind
    have hcand : imapDeletionCandidate (serverAgeThreshold dsa now) now jobs r := by
      have hp := List.find?_some hfind
      simpa using hp
    obtain ⟨hage, huid, hnojob⟩ := hcand
    refine ⟨r, hmem, hid, huid, ?_, ?_⟩
    · exact hage.imp id (fun x => ⟨x.1, x.2⟩)
    · rw [← hid]; exact hnojob
  refine ⟨main, fun hj hsome => ?_⟩
  obtain ⟨r, _, _, _, _, hno⟩ := main hsome
  exact hno hj

theorem claim_C3_witness :
    load_imap_deletion_msgid none 100 [⟨.DeleteMsgOnImap, 1⟩]
      [{ sampleRow with ephemeral_timestamp := 50 }] ≠ some 1 :=
  (claim_C3_imap_deletion_selection none 100 [⟨.DeleteMsgOnImap, 1⟩]
      [{ sampleRow with ephemeral_timestamp := 50 }] 1).2
    ⟨⟨.DeleteMsgOnImap, 1⟩, by simp, rfl, rfl⟩

theorem listMinInt_eq_none_iff (l : List Int) : listMinInt l = none ↔ l = [] := by
  cases l with
  | nil => simp [listMinInt]
  | cons x xs => cases h : listMinInt xs <;> simp [listMinInt, h]

theorem listMinInt_mem (l : List Int) (m : Int) (h : listMinInt l = some m) :
    m ∈ l := by
  induction l generalizing m with
  | nil => simp [listMinInt] at h
  | cons x xs ih =>
      rw [listMinInt] at h
      cases hx : listMinInt xs with
      | none =>
          rw [hx] at h
          simp at h
          simp [h]
      | some y =>
          rw [hx] at h
          simp at h
          rcases min_cases x y with ⟨he, _⟩ | ⟨he, _⟩ <;> rw [he] at h
          · simp [h]
          · simp [ih y hx, ← h]

theorem listMinInt_le (l : List Int) (m : Int) (h : listMinInt l = some m) :
    ∀ x ∈ l, m ≤ x := by
  induction l generalizing m with
  | nil => simp
  | cons x xs ih =>
      rw [listMinInt] at h
      cases hx : listMinInt xs with
      | none =>
          rw [hx] at h
          simp at h
          rw [listMinInt_eq_none_iff] at hx
          subst hx
          simp [h]
      | some y =>
          rw [hx] at h
          simp at h
          intro z hz
          rcases List.mem_cons.1 hz with rfl | hz'
          · omega
          · have := ih y hx z hz'
            omega

/-- Claim C4 counterexample: at the boundary `deadline = now` the claim
fails.  With one live message whose `ephemeral_timestamp` is 5, the
deadline is 6; calling the scheduler at `now = 6` (so `deadline ≤ now`)
arms a task for deadline 6 and emits nothing, instead of emitting the
event immediately and leaving the slot empty. -/
theorem claim_C4_counterexample :
    minEphemeralTimestamp [{ sampleRow with ephemeral_timestamp := 5 }] =
      some 5 ∧
    ((5 : Int) + 1 ≤ 6) ∧
    schedule_ephemeral_task 6 [{ sampleRow with ephemeral_timestamp := 5 }] =
      (some 6, []) := by
  decide

/-- Claim C4 (amended): after `schedule_ephemeral_task`: the scheduler
query is empty exactly when no row has `ephemeral_timestamp != 0` with
`chat_id != TRASH`, and then the slot is left empty with no event;
otherwise, with `min_ts` the (nonnegative) minimum such timestamp and
`deadline = min_ts + 1`, if `deadline < now` the `MsgsChanged 0 0` event
is emitted immediately and the slot is left empty, and if `deadline ≥ now`
a single task is armed whose firing deadline equals `deadline`. -/
theorem claim_C4_schedule_characterization (now : Int) (msgs : List MsgRow) :
    (minEphemeralTimestamp msgs = none ↔
      ∀ r ∈ msgs,
        ¬ (r.ephemeral_timestamp ≠ 0 ∧ r.chat_id ≠ DC_CHAT_ID_TRASH)) ∧
    (minEphemeralTimestamp msgs = none →
      schedule_ephemeral_task now msgs = (none, [])) ∧
    (∀ ts, minEphemeralTimestamp msgs = some ts → 0 ≤ ts →
      (∃ r ∈ msgs, r.ephemeral_timestamp = ts ∧ ts ≠ 0 ∧
        r.chat_id ≠ DC_CHAT_ID_TRASH) ∧
      (∀ r ∈ msgs, r.ephemeral_timestamp ≠ 0 →
        r.chat_id ≠ DC_CHAT_ID_TRASH → ts ≤ r.ephemeral_timestamp) ∧
      (now ≤ ts + 1 →
        schedule_ephemeral_task now msgs = (some (ts + 1), [])) ∧
      (ts + 1 < now →
        schedule_ephemeral_task now msgs =
          (none, [EventType.MsgsChanged 0 0]))) := by
  refine ⟨?_, ?_, ?_⟩
  · rw [minEphemeralTimestamp, listMinInt_eq_none_iff]
    simp [List.filter_eq_nil_iff]
  · intro h
    rw [schedule_ephemeral_task, h]
  · intro ts hts h0
    refine ⟨?_, ?_, ?_, ?_⟩
    · have hmem := listMinInt_mem _ _ hts
      obtain ⟨r, hrf, hrts⟩ := List.mem_map.1 hmem
      have hrp := List.of_mem_filter hrf
      have hrm := List.mem_of_mem_filter hrf
      have hrp' := of_decide_eq_true hrp
      exact ⟨r, hrm, hrts, by rw [← hrts]; exact hrp'.1, hrp'.2⟩
    · intro r hr h1 h2
      exact listMinInt_le _ _ hts r.ephemeral_timestamp
        (List.mem_map_of_mem _ (List.mem_filter.2 ⟨hr, by simp [h1, h2]⟩))
    · intro hle
      rw [schedule_ephemeral_task, hts]
      dsimp only
      rw [if_pos h0, if_pos hle]
    · intro hlt
      rw [schedule_ephemeral_task, hts]
      dsimp only
      rw [if_pos h0, if_neg (by omega)]

theorem claim_C4_witness :
    schedule_ephemeral_task 3 [{ sampleRow with ephemeral_timestamp := 5 }] =
      (some ((5 : Int) + 1), []) :=
  (((claim_C4_schedule_characterization 3
      [{ sampleRow with ephemeral_timestamp := 5 }]).2.2 5 (by decide)
        (by decide)).2.2.1) (by decide)

/-- Claim C5: `start_ephemeral_timer` is monotone-earlier.  For a message
whose timer decodes to `Enabled duration`, the targeted row receives
`ephemeral_timestamp = now + duration` exactly when its existing value is
0 or strictly greater than `now + duration` and is otherwise unchanged (no
other column and no other row changes), so a nonzero `ephemeral_timestamp`
never increases; a message whose timer is `Disabled` leaves the table
entirely unchanged. -/
theorem claim_C5_start_timer_monotone (mid : Nat) (now : Int)
    (msgs : List MsgRow) :
    (msgEphemeralTimer mid msgs = some .Disabled →
      start_ephemeral_timer mid now msgs = some msgs) ∧
    (∀ duration, msgEphemeralTimer mid msgs = some (.Enabled duration) →
      ∃ out, start_ephemeral_timer mid now msgs = some out ∧
        ∀ i (hi : i < msgs.length), ∃ r', out[i]? = some r' ∧
          ((msgs[i].ephemeral_timestamp = 0 ∨
              now + (duration : Int) < msgs[i].ephemeral_timestamp) ∧
            msgs[i].id = mid →
            r' = { msgs[i] with ephemeral_timestamp := now + duration }) ∧
          (¬ ((msgs[i].ephemeral_timestamp = 0 ∨
              now + (duration : Int) < msgs[i].ephemeral_timestamp) ∧
            msgs[i].id = mid) → r' = msgs[i]) ∧
          (msgs[i].ephemeral_timestamp ≠ 0 →
            r'.ephemeral_timestamp ≤ msgs[i].ephemeral_timestamp)) := by
  constructor
  · intro h
    rw [start_ephemeral_timer, h]
  · intro duration h
    rw [start_ephemeral_timer, h]
    refine ⟨_, rfl, ?_⟩
    intro i hi
    refine ⟨if (msgs[i].ephemeral_timestamp = 0 ∨
        now + (duration : Int) < msgs[i].ephemeral_timestamp) ∧
        msgs[i].id = mid
      then { msgs[i] with ephemeral_timestamp := now + duration }
      else msgs[i], ?_, ?_, ?_, ?_⟩
    · rw [List.getElem?_map, List.getElem?_eq_getElem hi]
      rfl
    · intro hc
      dsimp only
      rw [if_pos hc]
    · intro hc
      dsimp only
      rw [if_neg hc]
    · intro hne
      dsimp only
      by_cases hc : (msgs[i].ephemeral_timestamp = 0 ∨
          now + (duration : Int) < msgs[i].ephemeral_timestamp) ∧
          msgs[i].id = mid
      · rw [if_pos hc]
        rcases hc.1 with h0 | hlt
        · exact absurd h0 hne
        · exact le_of_lt hlt
      · rw [if_neg hc]

theorem claim_C5_witness :
    ∃ out,
      start_ephemeral_timer 1 100
        [{ sampleRow with ephemeral_timer := 7 }] = some out ∧
      ∀ i (hi : i < ([{ sampleRow with ephemeral_timer := 7 }] : List MsgRow).length),
        ∃ r', out[i]? = some r' ∧
          ((([{ sampleRow with ephemeral_timer := 7 }] : List MsgRow)[i].ephemeral_timestamp = 0 ∨
              100 + ((7 : Nat) : Int) <
                ([{ sampleRow with ephemeral_timer := 7 }] : List MsgRow)[i].ephemeral_timestamp) ∧
            ([{ sampleRow with ephemeral_timer := 7 }] : List MsgRow)[i].id = 1 →
            r' = { ([{ sampleRow with ephemeral_timer := 7 }] : List MsgRow)[i] with
                    ephemeral_timestamp := 100 + (7 : Nat) }) ∧
          (¬ ((([{ sampleRow with ephemeral_timer := 7 }] : List MsgRow)[i].ephemeral_timestamp = 0 ∨
              100 + ((7 : Nat) : Int) <
                ([{ sampleRow with ephemeral_timer := 7 }] : List MsgRow)[i].ephemeral_timestamp) ∧
            ([{ sampleRow with ephemeral_timer := 7 }] : List MsgRow)[i].id = 1) →
            r' = ([{ sampleRow with ephemeral_timer := 7 }] : List MsgRow)[i]) ∧
          (([{ sampleRow with ephemeral_timer := 7 }] : List MsgRow)[i].ephemeral_timestamp ≠ 0 →
            r'.ephemeral_timestamp ≤
              ([{ sampleRow with ephemeral_timer := 7 }] : List MsgRow)[i].ephemeral_timestamp) :=
  (claim_C5_start_timer_monotone 1 100
    [{ sampleRow with ephemeral_timer := 7 }]).2 7 (by decide)

theorem find_after_timer_write (cid : Nat) (t : Timer) (l : List ChatRow)
    (h : ∃ c ∈ l, c.id = cid) :
    ((l.map fun c =>
        if c.id = cid then { c with ephemeral_timer := t } else c).find?
      fun c => decide (c.id = cid)).map (·.ephemeral_timer) = some t := by
  induction l with
  | nil => simp at h
  | cons c l ih =>
      by_cases hc : c.id = cid
      · simp [List.find?, hc]
      · obtain ⟨c', hc', hid⟩ := h
        rcases List.mem_cons.1 hc' with rfl | hmem
        · exact absurd hid hc
        · simp only [List.map_cons, List.find?, if_neg hc]
          rw [decide_eq_false hc]
          exact ih ⟨c', hmem, hid⟩

/-- Claim C7: the silent setter `inner_set_ephemeral_timer` rejects every
special chat id with an invalid-chat error, writing nothing and emitting
no event; on every non-special chat id it writes the timer to the chat row
unconditionally and emits exactly one `ChatEphemeralTimerModified` event,
leaving the outbound pipeline untouched. -/
theorem claim_C7_silent_setter (cid : Nat) (t : Timer) (st : ChatState) :
    (chatIdIsSpecial cid → inner_set_ephemeral_timer cid t st = none) ∧
    (¬ chatIdIsSpecial cid →
      ∃ st', inner_set_ephemeral_timer cid t st = some st' ∧
        st'.chats = st.chats.map (fun c =>
          if c.id = cid then { c with ephemeral_timer := t } else c) ∧
        (∀ i (hi : i < st.chats.length), ∃ c', st'.chats[i]? = some c' ∧
          (st.chats[i].id = cid →
            c' = { st.chats[i] with ephemeral_timer := t }) ∧
          (st.chats[i].id ≠ cid → c' = st.chats[i])) ∧
        st'.events = st.events ++ [.ChatEphemeralTimerModified cid t] ∧
        st'.sent = st.sent) := by
  constructor
  · intro hs
    rw [inner_set_ephemeral_timer, if_pos hs]
  · intro hs
    rw [inner_set_ephemeral_timer, if_neg hs]
    refine ⟨_, rfl, rfl, ?_, rfl, rfl⟩
    intro i hi
    refine ⟨if st.chats[i].id = cid
        then { st.chats[i] with ephemeral_timer := t } else st.chats[i],
      ?_, ?_, ?_⟩
    · dsimp only
      rw [List.getElem?_map, List.getElem?_eq_getElem hi]
      rfl
    · intro hc
      rw [if_pos hc]
    · intro hc
      rw [if_neg hc]

theorem claim_C7_witness :
    ¬ chatIdIsSpecial 10 ∧
    (∃ st', inner_set_ephemeral_timer 10 (.Enabled 60)
        ⟨[⟨10, .Disabled⟩], [], []⟩ = some st' ∧
      st'.chats = ([⟨10, .Disabled⟩] : List ChatRow).map (fun c =>
        if c.id = 10 then { c with ephemeral_timer := .Enabled 60 } else c) ∧
      (∀ i (hi : i < ([⟨10, .Disabled⟩] : List ChatRow).length),
        ∃ c', st'.chats[i]? = some c' ∧
        (([⟨10, .Disabled⟩] : List ChatRow)[i].id = 10 →
          c' = { ([⟨10, .Disabled⟩] : List ChatRow)[i] with
                  ephemeral_timer := .Enabled 60 }) ∧
        (([⟨10, .Disabled⟩] : List ChatRow)[i].id ≠ 10 →
          c' = ([⟨10, .Disabled⟩] : List ChatRow)[i])) ∧
      st'.events = ([] : List EventType) ++
        [.ChatEphemeralTimerModified 10 (.Enabled 60)] ∧
      st'.sent = ([] : List SentMsg)) :=
  ⟨by decide,
    (claim_C7_silent_setter 10 (.Enabled 60)
      ⟨[⟨10, .Disabled⟩], [], []⟩).2 (by decide)⟩

/-- Claim C6 counterexample: the claim fails on special chat ids.  For the
special chat id 1 (at or below `LAST_SPECIAL`) whose stored timer
(`Disabled` by default) differs from the requested `Enabled 60`,
`set_ephemeral_timer` returns the invalid-chat error instead of writing
the timer, emitting the event and returning success. -/
theorem claim_C6_counterexample :
    Timer.Enabled 60 ≠ get_ephemeral_timer 1 ⟨[], [], []⟩ ∧
    set_ephemeral_timer 1 (.Enabled 60) true ⟨[], [], []⟩ = none := by
  decide

/-- Claim C6 (amended): for every chat and timer `t`, if `t` equals the
stored timer the call is a successful no-op (no write, no event, no send);
if `t` differs and the chat is not special, the call writes `t` through
the silent setter, emits `ChatEphemeralTimerModified`, attempts the
system-message send, and returns success even when the send fails, with
the stored timer remaining `t` (no rollback).  (For a special chat with a
differing `t` the call instead fails with the silent setter's
invalid-chat error, per the counterexample.) -/
theorem claim_C6_set_timer_no_rollback (cid : Nat) (t : Timer)
    (sendOk : Bool) (st : ChatState) :
    (t = get_ephemeral_timer cid st →
      set_ephemeral_timer cid t sendOk st = some st) ∧
    (¬ chatIdIsSpecial cid → t ≠ get_ephemeral_timer cid st →
      ∃ st', set_ephemeral_timer cid t sendOk st = some st' ∧
        st'.chats = st.chats.map (fun c =>
          if c.id = cid then { c with ephemeral_timer := t } else c) ∧
        st'.events = st.events ++ [.ChatEphemeralTimerModified cid t] ∧
        ((∃ c ∈ st.chats, c.id = cid) → get_ephemeral_timer cid st' = t) ∧
        (sendOk = true → st'.sent = st.sent ++
          [⟨stock_ephemeral_timer_changed t DC_CONTACT_ID_SELF,
            .EphemeralTimerChanged⟩]) ∧
        (sendOk = false → st'.sent = st.sent)) := by
  constructor
  · intro h
    rw [set_ephemeral_timer, if_pos h]
  · intro hns hne
    rw [set_ephemeral_timer, if_neg hne, inner_set_ephemeral_timer,
      if_neg hns]
    dsimp only
    cases sendOk with
    | true =>
        refine ⟨_, rfl, rfl, rfl, ?_, fun _ => rfl, by simp⟩
        intro hex
        rw [get_ephemeral_timer]
        dsimp only
        rw [find_after_timer_write cid t st.chats hex]
        rfl
    | false =>
        refine ⟨_, rfl, rfl, rfl, ?_, by simp, fun _ => rfl⟩
        intro hex
        rw [get_ephemeral_timer]
        dsimp only
        rw [find_after_timer_write cid t st.chats hex]
        rfl

theorem claim_C6_witness :
    ∃ st', set_ephemeral_timer 10 (.Enabled 60) false
        ⟨[⟨10, .Disabled⟩], [], []⟩ = some st' ∧
      st'.chats = ([⟨10, .Disabled⟩] : List ChatRow).map (fun c =>
        if c.id = 10 then { c with ephemeral_timer := .Enabled 60 } else c) ∧
      st'.events = ([] : List EventType) ++
        [.ChatEphemeralTimerModified 10 (.Enabled 60)] ∧
      ((∃ c ∈ ([⟨10, .Disabled⟩] : List ChatRow), c.id = 10) →
        get_ephemeral_timer 10 st' = .Enabled 60) ∧
      (false = true → st'.sent = ([] : List SentMsg) ++
        [⟨stock_ephemeral_timer_changed (.Enabled 60) DC_CONTACT_ID_SELF,
          .EphemeralTimerChanged⟩]) ∧
      (false = false → st'.sent = ([] : List SentMsg)) :=
  (claim_C6_set_timer_no_rollback 10 (.Enabled 60) false
    ⟨[⟨10, .Disabled⟩], [], []⟩).2 (by decide) (by decide)

/-- Claim C8: `stock_ephemeral_timer_changed` selects the template bucket
exactly per the specified duration table (seconds for 1..=59, one minute
at 60, minutes with one decimal for 61..=3599, one hour at 3600, hours for
3601..=86399, one day at 86400, days for 86401..=604799, one week at
604800, weeks above), with the numeric fragment rounded half away from
zero on the tenths place; in particular the renderings of 90 s, 5400 s
and 2419200 s carry the fragments `1.5`, `1.5` and `4`. -/
theorem claim_C8_render_buckets (n actor : Nat) :
    (1 ≤ n → n ≤ 59 →
      stock_ephemeral_timer_changed (.Enabled n) actor =
        .secondsTemplate (Timer.to_string (.Enabled n)) actor) ∧
    (stock_ephemeral_timer_changed (.Enabled 60) actor =
      .minuteTemplate actor) ∧
    (61 ≤ n → n ≤ 3599 →
      stock_ephemeral_timer_changed (.Enabled n) actor =
        .minutesTemplate (tenthsString (roundHalfAwayDiv n 6)) actor) ∧
    (stock_ephemeral_timer_changed (.Enabled 3600) actor =
      .hourTemplate actor) ∧
    (3601 ≤ n → n ≤ 86399 →
      stock_ephemeral_timer_changed (.Enabled n) actor =
        .hoursTemplate (tenthsString (roundHalfAwayDiv n 360)) actor) ∧
    (stock_ephemeral_timer_changed (.Enabled 86400) actor =
      .dayTemplate actor) ∧
    (86401 ≤ n → n ≤ 604799 →
      stock_ephemeral_timer_changed (.Enabled n) actor =
        .daysTemplate (tenthsString (roundHalfAwayDiv n 8640)) actor) ∧
    (stock_ephemeral_timer_changed (.Enabled 604800) actor =
      .weekTemplate actor) ∧
    (604801 ≤ n →
      stock_ephemeral_timer_changed (.Enabled n) actor =
        .weeksTemplate (tenthsString (roundHalfAwayDiv n 60480)) actor) ∧
    stock_ephemeral_timer_changed (.Enabled 90) actor =
      .minutesTemplate "1.5" actor ∧
    stock_ephemeral_timer_changed (.Enabled 5400) actor =
      .hoursTemplate "1.5" actor ∧
    stock_ephemeral_timer_changed (.Enabled 2419200) actor =
      .weeksTemplate "4" actor := by
  refine ⟨?_, ?_, ?_, ?_, ?_, ?_, ?_, ?_, ?_, ?_, ?_, ?_⟩
  · intro h1 h2
    simp only [stock_ephemeral_timer_changed]
    rw [if_pos (by omega)]
  · simp [stock_ephemeral_timer_changed]
  · intro h1 h2
    have e1 : ¬ n ≤ 59 := by omega
    have e2 : n ≠ 60 := by omega
    simp only [stock_ephemeral_timer_changed, if_neg e1, if_neg e2,
      if_pos h2]
  · simp [stock_ephemeral_timer_changed]
  · intro h1 h2
    have e1 : ¬ n ≤ 59 := by omega
    have e2 : n ≠ 60 := by omega
    have e3 : ¬ n ≤ 3599 := by omega
    have e4 : n ≠ 3600 := by omega
    simp only [stock_ephemeral_timer_changed, if_neg e1, if_neg e2,
      if_neg e3, if_neg e4, if_pos h2]
  · simp [stock_ephemeral_timer_changed]
  · intro h1 h2
    have e1 : ¬ n ≤ 59 := by omega
    have e2 : n ≠ 60 := by omega
    have e3 : ¬ n ≤ 3599 := by omega
    have e4 : n ≠ 3600 := by omega
    have e5 : ¬ n ≤ 86399 := by omega
    have e6 : n ≠ 86400 := by omega
    simp only [stock_ephemeral_timer_changed, if_neg e1, if_neg e2,
      if_neg e3, if_neg e4, if_neg e5, if_neg e6, if_pos h2]
  · simp [stock_ephemeral_timer_changed]
  · intro h1
    have e1 : ¬ n ≤ 59 := by omega
    have e2 : n ≠ 60 := by omega
    have e3 : ¬ n ≤ 3599 := by omega
    have e4 : n ≠ 3600 := by omega
    have e5 : ¬ n ≤ 86399 := by omega
    have e6 : n ≠ 86400 := by omega
    have e7 : ¬ n ≤ 604799 := by omega
    have e8 : n ≠ 604800 := by omega
    simp only [stock_ephemeral_timer_changed, if_neg e1, if_neg e2,
      if_neg e3, if_neg e4, if_neg e5, if_neg e6, if_neg e7, if_neg e8]
  · have h1 : stock_ephemeral_timer_changed (.Enabled 90) actor =
        .minutesTemplate (tenthsString (roundHalfAwayDiv 90 6)) actor := by
      simp [stock_ephemeral_timer_changed]
    rw [h1, show roundHalfAwayDiv 90 6 = 15 by norm_num [roundHalfAwayDiv]]
    simp [tenthsString, natToString, natToChars]
  · have h1 : stock_ephemeral_timer_changed (.Enabled 5400) actor =
        .hoursTemplate (tenthsString (roundHalfAwayDiv 5400 360)) actor := by
      simp [stock_ephemeral_timer_changed]
    rw [h1,
      show roundHalfAwayDiv 5400 360 = 15 by norm_num [roundHalfAwayDiv]]
    simp [tenthsString, natToString, natToChars]
  · have h1 : stock_ephemeral_timer_changed (.Enabled 2419200) actor =
        .weeksTemplate (tenthsString (roundHalfAwayDiv 2419200 60480))
          actor := by
      simp [stock_ephemeral_timer_changed]
    rw [h1,
      show roundHalfAwayDiv 2419200 60480 = 40 by
        norm_num [roundHalfAwayDiv]]
    simp [tenthsString, natToString, natToChars]

theorem claim_C8_witness :
    stock_ephemeral_timer_changed (.Enabled 90) 1 =
      .minutesTemplate (tenthsString (roundHalfAwayDiv 90 6)) 1 ∧
    stock_ephemeral_timer_changed (.Enabled 90) 1 =
      .minutesTemplate "1.5" 1 :=
  ⟨(claim_C8_render_buckets 90 1).2.2.1 (by decide) (by decide),
    (claim_C8_render_buckets 90 1).2.2.2.2.2.2.2.2.2.1⟩

theorem parseU32From_append (acc : Nat) (xs ys : List Char) :
    parseU32From acc (xs ++ ys) =
      match parseU32From acc xs with
      | some a => parseU32From a ys
      | none => none := by
  induction xs generalizing acc with
  | nil => rfl
  | cons c cs ih =>
      simp only [List.cons_append, parseU32From]
      by_cases hd : c.isDigit = true
      · simp only [if_pos hd]
        by_cases hov : acc * 10 + (c.toNat - 48) < 2 ^ 32
        · simp only [if_pos hov]
          exact ih _
        · simp only [if_neg hov]
      · simp only [if_neg hd]

theorem digitChar_spec (d : Nat) (hd : d < 10) :
    (Char.ofNat (48 + d)).isDigit = true ∧
      (Char.ofNat (48 + d)).toNat = 48 + d := by
  interval_cases d <;> exact ⟨by decide, by decide⟩

theorem natToChars_head (n : Nat) :
    ∃ c cs, natToChars n = c :: cs ∧ c.isDigit = true := by
  induction n using Nat.strong_induction_on with
  | _ n ih =>
    by_cases h : n < 10
    · rw [natToChars, dif_pos h]
      exact ⟨_, _, rfl, (digitChar_spec n h).1⟩
    · rw [natToChars, dif_neg h]
      obtain ⟨c, cs, hcs, hcd⟩ :=
        ih (n / 10) (Nat.div_lt_self (by omega) (by omega))
      rw [hcs]
      exact ⟨c, cs ++ [Char.ofNat (48 + n % 10)], rfl, hcd⟩

theorem parseU32From_natToChars (n : Nat) :
    ∀ acc, acc * 10 ^ (natToChars n).length + n < 2 ^ 32 →
      parseU32From acc (natToChars n) =
        some (acc * 10 ^ (natToChars n).length + n) := by
  induction n using Nat.strong_induction_on with
  | _ n ih =>
    intro acc hb
    by_cases h : n < 10
    · have hn : natToChars n = [Char.ofNat (48 + n)] := by
        rw [natToChars, dif_pos h]
      rw [hn] at hb ⊢
      simp only [List.length_cons, List.length_nil, pow_one] at hb ⊢
      obtain ⟨hdig, htn⟩ := digitChar_spec n h
      have hsub : 48 + n - 48 = n := by omega
      simp only [parseU32From, hdig, htn, hsub, if_true]
      rw [if_pos (by omega)]
      norm_num
    · have hn : natToChars n =
          natToChars (n / 10) ++ [Char.ofNat (48 + n % 10)] := by
        rw [natToChars, dif_neg h]
      rw [hn] at hb ⊢
      rw [List.length_append, List.length_cons, List.length_nil] at hb ⊢
      simp only [Nat.zero_add] at hb ⊢
      rw [parseU32From_append]
      have hdiv : acc * 10 ^ (natToChars (n / 10)).length + n / 10 <
          2 ^ 32 := by
        have hc : 10 * (acc * 10 ^ (natToChars (n / 10)).length + n / 10) ≤
            acc * 10 ^ ((natToChars (n / 10)).length + 1) + n := by
          have h2 : 10 * (n / 10) ≤ n := by omega
          calc 10 * (acc * 10 ^ (natToChars (n / 10)).length + n / 10)
              = acc * (10 ^ (natToChars (n / 10)).length * 10) +
                  10 * (n / 10) := by ring
            _ ≤ acc * (10 ^ (natToChars (n / 10)).length * 10) + n := by
                  omega
            _ = acc * 10 ^ ((natToChars (n / 10)).length + 1) + n := by
                  rw [pow_succ]
        omega
      rw [ih (n / 10) (Nat.div_lt_self (by omega) (by omega)) acc hdiv]
      dsimp only
      obtain ⟨hdig, htn⟩ := digitChar_spec (n % 10) (by omega)
      have hsub : 48 + n % 10 - 48 = n % 10 := by omega
      simp only [parseU32From, hdig, htn, hsub, if_true]
      have heq : (acc * 10 ^ (natToChars (n / 10)).length + n / 10) * 10 +
          n % 10 = acc * 10 ^ ((natToChars (n / 10)).length + 1) + n := by
        calc (acc * 10 ^ (natToChars (n / 10)).length + n / 10) * 10 +
            n % 10
            = acc * (10 ^ (natToChars (n / 10)).length * 10) +
                (n / 10 * 10 + n % 10) := by ring
          _ = acc * 10 ^ ((natToChars (n / 10)).length + 1) + n := by
                rw [pow_succ]; omega
      rw [heq, if_pos (by omega)]

theorem parseU32_natToChars (n : Nat) (h : n < 2 ^ 32) :
    parseU32 (natToChars n) = some n := by
  obtain ⟨c, cs, hcs, hcd⟩ := natToChars_head n
  have hplus : ¬ c = '+' := by
    intro he
    rw [he] at hcd
    exact absurd hcd (by decide)
  rw [hcs]
  simp only [parseU32, if_neg hplus]
  rw [← hcs]
  have hm := parseU32From_natToChars n 0 (by simpa using h)
  simpa using hm

/-- Claim C10: the string encoding of `Timer` round-trips: for `Disabled`
and for `Enabled n` with a positive `u32` duration, parsing the decimal
rendering returns the original timer, because `to_string` renders the
`u32` encoding and `from_str` parses a `u32` and maps 0 back to
`Disabled`. -/
theorem claim_C10_string_roundtrip (t : Timer)
    (h : match t with
      | .Disabled => True
      | .Enabled n => 0 < n ∧ n < 2 ^ 32) :
    Timer.from_str (Timer.to_string t) = some t := by
  cases t with
  | Disabled =>
      simp only [Timer.from_str, Timer.to_string, natToString, Timer.to_u32]
      rw [parseU32_natToChars 0 (by norm_num)]
      rfl
  | Enabled n =>
      obtain ⟨h1, h2⟩ := h
      simp only [Timer.from_str, Timer.to_string, natToString, Timer.to_u32]
      rw [parseU32_natToChars n h2]
      simp only [Option.map_some']
      rw [Timer.from_u32, if_neg (by omega)]

theorem claim_C10_witness :
    Timer.from_str (Timer.to_string (.Enabled 60)) = some (.Enabled 60) :=
  claim_C10_string_roundtrip (.Enabled 60) (by decide)
